import Mathlib

/-!
Verification of the operation scheduler and rate limiter of
`cogs/login_handler.py` (Kingshot-Discord-Bot).

The Python class `LoginHandler` is embedded shallowly: its mutable instance
attributes become the fields of `SchedState`, each method becomes a Lean
function threading that state, timestamps are rationals (the Python code uses
`time.time()` floats), and network and callback outcomes are supplied as
explicit oracle values since the scheduler treats them as opaque.
-/

namespace LoginHandler

/-- Result status of `fetch_player_data` (the `status` key of the returned dict). -/
inductive Status
  | success
  | error
  | rateLimited
  | notFound
  deriving DecidableEq, Repr

/-- The dict returned by `fetch_player_data`: keys `status`, `data`,
`wait_time` (present only on local rate limiting), `error_message`, `err_code`. -/
structure FetchResult where
  status : Status
  data : Option String
  wait_time : Option ℚ
  error_message : Option String
  err_code : Option Int
  deriving DecidableEq, Repr

/-- An `operation_info` dict as queued by `queue_operation`.  The callback is
opaque to the scheduler; we record only its outcome when run: `none` means it
returned normally, `some m` means it raised an exception with message `m`.
`interactionSendFails` records whether the `interaction.followup.send` call in
the error path would itself raise (the code swallows such a failure). -/
structure OperationInfo where
  description : String
  alliance_id : Option String
  callbackRaises : Option String
  hasInteraction : Bool
  interactionSendFails : Bool
  was_queued : Bool
  deriving DecidableEq, Repr

/-- The mutable instance state of `LoginHandler` set up by `__init__`:
`api_requests`, `rate_limit`, `rate_limit_window`, `api_available`,
`request_delay`, `alliance_locks` (modelled by the list of keys for which a
lock object exists), `operation_queue`, `current_operation`, and
`queue_processor_task` (`none` when no task was ever created, `some d` when a
task exists with `done() = d`). -/
structure SchedState where
  api_requests : List ℚ
  rate_limit : ℕ
  rate_limit_window : ℚ
  api_available : Bool
  request_delay : ℚ
  alliance_locks : List String
  operation_queue : List OperationInfo
  current_operation : Option OperationInfo
  queue_processor_task : Option Bool
  deriving DecidableEq, Repr

/-- The field values assigned by `LoginHandler.__init__`. -/
def initState : SchedState where
  api_requests := []
  rate_limit := 30
  rate_limit_window := 60
  api_available := true
  request_delay := 2
  alliance_locks := []
  operation_queue := []
  current_operation := none
  queue_processor_task := none

/-- `_check_rate_limit`: evicts entries with `now - t >= rate_limit_window`
from `api_requests` (the list comprehension keeps `now - t < window`), then
returns `(True, 0)` when the surviving count is below `rate_limit`, otherwise
`(False, max(0, window - (now - oldest)))` with `0` when the list is empty. -/
def check_rate_limit (s : SchedState) (now : ℚ) : (Bool × ℚ) × SchedState :=
  let reqs := s.api_requests.filter (fun t => now - t < s.rate_limit_window)
  let s' := { s with api_requests := reqs }
  if reqs.length < s.rate_limit then
    ((true, 0), s')
  else
    let wait_time := match reqs with
      | [] => 0
      | t :: _ => s.rate_limit_window - (now - t)
    ((false, max 0 wait_time), s')

/-- `_record_api_request`: appends the current time to `api_requests`. -/
def record_api_request (s : SchedState) (now : ℚ) : SchedState :=
  { s with api_requests := s.api_requests ++ [now] }

/-- The dict returned by `get_rate_limit_info`. -/
structure RateLimitInfo where
  api_used : ℕ
  api_remaining : ℤ
  total_available : ℤ
  deriving DecidableEq, Repr

/-- `get_rate_limit_info`: evicts expired entries from `api_requests`, then
reports `api_used = len(api_requests)` and
`api_remaining = total_available = rate_limit - len(api_requests)`. -/
def get_rate_limit_info (s : SchedState) (now : ℚ) : RateLimitInfo × SchedState :=
  let reqs := s.api_requests.filter (fun t => now - t < s.rate_limit_window)
  (⟨reqs.length, (s.rate_limit : ℤ) - reqs.length, (s.rate_limit : ℤ) - reqs.length⟩,
    { s with api_requests := reqs })

/-- Outcome of the HTTP POST inside `fetch_player_data`, supplied as an
oracle.  `exn m` means the request raised before any response object was
obtained (connection failure; the `_record_api_request` line is then never
reached); `resp st d ec m` means a response arrived with HTTP status `st`,
JSON `data` field `d`, `err_code` field `ec` and `msg` field `m`. -/
inductive NetOutcome
  | exn (msg : String)
  | resp (httpStatus : ℕ) (data : Option String) (errCode : Option Int) (msg : String)
  deriving DecidableEq, Repr

/-- `fetch_player_data`: checks the rate limit (which evicts expired
timestamps), returning a `rate_limited` result carrying the wait time when not
permitted; returns an `error` result when `api_available` is false; otherwise
issues the POST.  `_record_api_request` runs exactly when a response object is
obtained, before the status dispatch (200 with data / 200 with err_code 40004
/ 200 otherwise / 429 / other). -/
def fetch_player_data (s : SchedState) (now : ℚ) (net : NetOutcome) :
    FetchResult × SchedState :=
  let cr := check_rate_limit s now
  let can_request := cr.1.1
  let wait_time := cr.1.2
  let s1 := cr.2
  if can_request = false then
    (⟨Status.rateLimited, none, some wait_time, some "Rate limit reached.", none⟩, s1)
  else if s1.api_available = false then
    (⟨Status.error, none, none, some "Kingshot API is unavailable", none⟩, s1)
  else
    match net with
    | NetOutcome.exn m =>
        (⟨Status.error, none, none, some m, none⟩, s1)
    | NetOutcome.resp httpStatus data errCode msg =>
        let s2 := record_api_request s1 now
        if httpStatus = 200 then
          match data with
          | some d => (⟨Status.success, some d, none, none, none⟩, s2)
          | none =>
              if errCode = some 40004 then
                (⟨Status.notFound, none, none,
                  some "Player does not exist (role not exist)", some 40004⟩, s2)
              else
                (⟨Status.error, none, none, some msg, errCode⟩, s2)
        else if httpStatus = 429 then
          (⟨Status.rateLimited, none, none, some "Unexpected rate limit", none⟩, s2)
        else
          (⟨Status.error, none, none, some ("HTTP " ++ toString httpStatus), none⟩, s2)

/-- `get_alliance_lock`: creates the lock object for `alliance_id` on first
use; afterwards the existing lock is returned and the registry is unchanged. -/
def get_alliance_lock (s : SchedState) (aid : String) : SchedState :=
  if aid ∈ s.alliance_locks then s
  else { s with alliance_locks := s.alliance_locks ++ [aid] }

/-- Observable actions of batch fetching: progress-callback invocations and
`asyncio.sleep` calls. -/
inductive BatchEvent
  | progress (current total : ℕ) (msg : String)
  | sleep (seconds : ℚ)
  deriving DecidableEq, Repr

/-- `_fetch_batch_internal`: iterates over the fids, fetching each one; a
`rate_limited` result triggers one in-place retry after sleeping
`result.get(wait_time, 60)`, the retry result replacing the original
(`results[-1] = result`); a `request_delay` sleep separates iterations.  The
clock value and network outcome of the k-th call to `fetch_player_data` are
given by `oracle k`; `i` is the 0-based loop index, `total = len(fids)`, and
`k` counts fetch calls made so far.  Returns the results list, the emitted
events, the final state and the final call counter. -/
def fetch_batch_go (oracle : ℕ → ℚ × NetOutcome) (hasCallback : Bool) :
    List String → ℕ → ℕ → ℕ → SchedState →
    List FetchResult × List BatchEvent × SchedState × ℕ
  | [], _, _, k, s => ([], [], s, k)
  | _fid :: rest, i, total, k, s =>
    let ev0 := if hasCallback then
        [BatchEvent.progress (i + 1) total
          ("Fetching player " ++ toString (i + 1) ++ "/" ++ toString total)]
      else []
    let o := oracle k
    let fr := fetch_player_data s o.1 o.2
    let step :=
      if fr.1.status = Status.rateLimited then
        let w := fr.1.wait_time.getD 60
        let ev1 := if hasCallback then
            [BatchEvent.progress (i + 1) total "Rate limited. Waiting..."]
          else []
        let o2 := oracle (k + 1)
        let fr2 := fetch_player_data fr.2 o2.1 o2.2
        (fr2.1, ev1 ++ [BatchEvent.sleep w], fr2.2, k + 2)
      else
        (fr.1, ([] : List BatchEvent), fr.2, k + 1)
    let evDelay := if i + 1 < total then [BatchEvent.sleep s.request_delay] else []
    let tail := fetch_batch_go oracle hasCallback rest (i + 1) total step.2.2.2 step.2.2.1
    (step.1 :: tail.1, ev0 ++ step.2.1 ++ evDelay ++ tail.2.1, tail.2.2)

/-- Entry point of `_fetch_batch_internal` as called by `fetch_player_batch`:
loop index starts at 0, `total = len(fids)`. -/
def fetch_batch_internal (oracle : ℕ → ℚ × NetOutcome) (hasCallback : Bool)
    (fids : List String) (k : ℕ) (s : SchedState) :
    List FetchResult × List BatchEvent × SchedState × ℕ :=
  fetch_batch_go oracle hasCallback fids 0 fids.length k s

/-- `start_queue_processor`: creates a fresh (running, not done) processor
task when none exists or the existing one is done; otherwise does nothing. -/
def start_queue_processor (s : SchedState) : SchedState :=
  match s.queue_processor_task with
  | none => { s with queue_processor_task := some false }
  | some true => { s with queue_processor_task := some false }
  | some false => s

/-- `queue_operation`: records `was_queued = (qsize() > 0)` on the operation,
puts it on the queue, reads the new `qsize()`, starts the processor if needed,
and returns the new size. -/
def queue_operation (s : SchedState) (op : OperationInfo) : ℕ × SchedState :=
  let current_size := s.operation_queue.length
  let op' := { op with was_queued := decide (0 < current_size) }
  let s1 := { s with operation_queue := s.operation_queue ++ [op'] }
  let queue_size := s1.operation_queue.length
  let s2 := start_queue_processor s1
  (queue_size, s2)

/-- Observable actions of the consumer loop: `log_message` writes, error
followups sent through the interaction, and `asyncio.sleep` pauses. -/
inductive ConsumerEvent
  | log (msg : String)
  | followupSend (msg : String)
  | sleep (seconds : ℚ)
  deriving DecidableEq, Repr

/-- The body of one `while True` iteration of `_process_operation_queue`
after an operation has been dequeued (lines inside the inner try/except/
finally): sets `current_operation`, acquires the alliance lock when
`alliance_id` is set (which creates the lock object on first use; the
single-consumer model acquires it immediately), runs the callback, catches
any exception it raises — logging it and attempting the interaction followup
(whose own failure is swallowed) — and finally clears `current_operation`. -/
def process_one_operation (op : OperationInfo) (s : SchedState) :
    List ConsumerEvent × SchedState :=
  let s1 := { s with current_operation := some op }
  let ev0 := [ConsumerEvent.log ("Processing operation: " ++ op.description)]
  let s2 := match op.alliance_id with
    | some aid => get_alliance_lock s1 aid
    | none => s1
  let evRun := match op.callbackRaises with
    | none => [ConsumerEvent.log ("Operation completed: " ++ op.description)]
    | some m =>
        ConsumerEvent.log ("Operation failed: " ++ op.description ++ " - Error: " ++ m) ::
          (if op.hasInteraction && !op.interactionSendFails then
            [ConsumerEvent.followupSend ("Operation failed: " ++ m)]
          else [])
  let s3 := { s2 with current_operation := none }
  (ev0 ++ evRun, s3)

/-- The consumer drains the given list of queued operations one at a time,
each through `process_one_operation`; the structural recursion mirrors the
`while True` loop taking items in FIFO order. -/
def process_operation_queue (ops : List OperationInfo) (s : SchedState) :
    List ConsumerEvent × SchedState :=
  match ops with
  | [] => ([], s)
  | op :: rest =>
      let r := process_one_operation op s
      let r' := process_operation_queue rest r.2
      (r.1 ++ r'.1, r'.2)

/-- Outcome of one `while True` iteration as seen by the outer
try/except of `_process_operation_queue`: an operation was dequeued and
processed, the task was cancelled (asyncio.CancelledError), or some other
exception escaped the per-operation boundary. -/
inductive IterOutcome
  | item (op : OperationInfo)
  | cancelled
  | fault (msg : String)
  deriving DecidableEq, Repr

/-- What the loop does after an iteration: resume with the next iteration or
stop (break). -/
inductive LoopStep
  | resume (events : List ConsumerEvent)
  | stop (events : List ConsumerEvent)
  deriving DecidableEq, Repr

/-- One iteration of the outer `while True`/try/except of
`_process_operation_queue`: a dequeued operation is processed and the loop
continues; `asyncio.CancelledError` logs and breaks; any other exception is
logged, followed by `asyncio.sleep(1)`, and the loop continues. -/
def loop_iteration (o : IterOutcome) (s : SchedState) : LoopStep × SchedState :=
  match o with
  | IterOutcome.item op =>
      let r := process_one_operation op s
      (LoopStep.resume r.1, r.2)
  | IterOutcome.cancelled =>
      (LoopStep.stop [ConsumerEvent.log "Queue processor cancelled"], s)
  | IterOutcome.fault m =>
      (LoopStep.resume
        [ConsumerEvent.log ("Queue processor error: " ++ m), ConsumerEvent.sleep 1], s)

/-- Runs the consumer loop over a stream of iteration outcomes: it keeps
looping until an iteration ends in `stop`, and then processes nothing
further. -/
def run_consumer (os : List IterOutcome) (s : SchedState) :
    List ConsumerEvent × SchedState :=
  match os with
  | [] => ([], s)
  | o :: rest =>
      match loop_iteration o s with
      | (LoopStep.stop evs, s') => (evs, s')
      | (LoopStep.resume evs, s') =>
          let r := run_consumer rest s'
          (evs ++ r.1, r.2)

/-- The dict returned by `get_queue_info`. -/
structure QueueInfo where
  queue_size : ℕ
  current_operation : Option OperationInfo
  is_processing : Bool
  deriving DecidableEq, Repr

/-- `get_queue_info`: reads `qsize()`, `current_operation` and whether an
operation is in flight; it assigns to no attribute. -/
def get_queue_info (s : SchedState) : QueueInfo × SchedState :=
  (⟨s.operation_queue.length, s.current_operation, s.current_operation.isSome⟩, s)

/-- A `LoginHandler` Python object: the `_initialized` flag together with the
instance attributes (absent, i.e. meaningless, until `__init__` ran). -/
structure InstanceState where
  initialized : Bool
  st : SchedState
  deriving DecidableEq, Repr

/-- The process-wide class state: the allocated instances (addressed by
position) and the `LoginHandler._instance` class attribute. -/
structure PyClassState where
  heap : List InstanceState
  instanceAttr : Option ℕ
  deriving DecidableEq, Repr

/-- `LoginHandler.__new__`: when `_instance` is `None`, allocates a fresh
object with `_initialized = False` and stores it in `_instance`; otherwise
returns the stored instance unchanged. -/
def login_handler_new (cs : PyClassState) : ℕ × PyClassState :=
  match cs.instanceAttr with
  | some i => (i, cs)
  | none =>
      let addr := cs.heap.length
      (addr, { heap := cs.heap ++ [⟨false, initState⟩], instanceAttr := some addr })

/-- `LoginHandler.__init__` run on instance `i`: returns immediately when the
instance is already initialized; otherwise assigns every attribute its
default value (collected in `initState`) and sets `_initialized = True`. -/
def login_handler_init (cs : PyClassState) (i : ℕ) : PyClassState :=
  match cs.heap[i]? with
  | none => cs
  | some inst =>
      if inst.initialized then cs
      else { cs with heap := cs.heap.set i ⟨true, initState⟩ }

/-- Constructing `LoginHandler()`: Python calls `__new__` and then `__init__`
on the returned instance. -/
def login_handler_construct (cs : PyClassState) : ℕ × PyClassState :=
  let r := login_handler_new cs
  (r.1, login_handler_init r.2 r.1)

/-! ### Group-lock exclusion model

Operations that carry an `alliance_id` run their callback under
`async with self.get_alliance_lock(str(alliance_id))`.  To reason about
temporal overlap we model every task that may execute a callback (the queue
consumer and direct `fetch_player_batch` callers alike) as an agent moving
through phases, with the asyncio.Lock semantics as the guard on entering the
critical phase: `Lock.acquire` succeeds only when no other holder exists for
that key, and `async with` releases on exit of the block. -/

/-- Phase of a callback-executing task: not yet started, waiting to acquire
its group lock, executing the callback (critical section), finished. -/
inductive Phase
  | idle
  | waiting
  | critical
  | done
  deriving DecidableEq, Repr

/-- One callback-executing task: its group key (`none` for ungrouped
operations, which run without a lock) and its current phase. -/
structure GTask where
  key : Option String
  phase : Phase
  deriving DecidableEq, Repr

/-- Interleaving semantics of the lock discipline of
`_process_operation_queue` and `fetch_player_batch`: a task may start
waiting; a task may enter its critical section, but when its key is
`some k`, only while no other task with key `k` is critical (asyncio.Lock
acquisition); leaving the critical section releases the lock (end of the
`async with` block). -/
inductive LockStep : List GTask → List GTask → Prop
  | start (cfg : List GTask) (i : ℕ) (t : GTask) (hget : cfg[i]? = some t)
      (hp : t.phase = Phase.idle) :
      LockStep cfg (cfg.set i { t with phase := Phase.waiting })
  | acquire (cfg : List GTask) (i : ℕ) (t : GTask) (hget : cfg[i]? = some t)
      (hp : t.phase = Phase.waiting)
      (hfree : ∀ k, t.key = some k → ∀ j u, cfg[j]? = some u → j ≠ i →
        u.key = some k → u.phase ≠ Phase.critical) :
      LockStep cfg (cfg.set i { t with phase := Phase.critical })
  | release (cfg : List GTask) (i : ℕ) (t : GTask) (hget : cfg[i]? = some t)
      (hp : t.phase = Phase.critical) :
      LockStep cfg (cfg.set i { t with phase := Phase.done })

/-- Mutual-exclusion invariant: for each group key, at most one task is in
its critical section, i.e. two critical tasks with the same key coincide. -/
def MutexInv (cfg : List GTask) : Prop :=
  ∀ (k : String) (i j : ℕ) (ti tj : GTask), cfg[i]? = some ti → cfg[j]? = some tj →
    ti.key = some k → tj.key = some k →
    ti.phase = Phase.critical → tj.phase = Phase.critical → i = j

/-! ### Theorems -/

/-- Helper: `_check_rate_limit` changes exactly one attribute, evicting the
expired entries of `api_requests`. -/
theorem check_rate_limit_state_eq (s : SchedState) (now : ℚ) :
    (check_rate_limit s now).2
      = { s with api_requests :=
            s.api_requests.filter (fun t => now - t < s.rate_limit_window) } := by
  simp only [check_rate_limit]
  split <;> rfl

/-- Helper: the permitted flag of `_check_rate_limit` is the comparison of the
evicted window length with the limit. -/
theorem check_rate_limit_fst (s : SchedState) (now : ℚ) :
    (check_rate_limit s now).1.1
      = decide ((s.api_requests.filter
          (fun t => now - t < s.rate_limit_window)).length < s.rate_limit) := by
  by_cases h : (s.api_requests.filter (fun t => now - t < s.rate_limit_window)).length
      < s.rate_limit <;>
    simp [check_rate_limit, h]

/-- Claim C1: `checkAvailability` (`_check_rate_limit`) first evicts from the
window every timestamp whose age reaches `windowSeconds`, then returns
`permitted = (length of the remaining window < limit)`; when permitted the
wait is `0`, and when not permitted the wait is
`windowSeconds - (now - oldestTimestamp)` floored at `0`.  Moreover, with
`limit = 2` and `window = 60` under a clock fixed at `100`, the sequence
checkAvailability; recordCall; recordCall; checkAvailability returns
`(true, 0)` then `(false, 60)`, and with the clock advanced to `161` the
final checkAvailability returns `(true, 0)` again. -/
theorem check_rate_limit_spec (s : SchedState) (now : ℚ) :
    (check_rate_limit s now).2.api_requests
        = s.api_requests.filter (fun t => now - t < s.rate_limit_window)
    ∧ (check_rate_limit s now).1.1
        = decide ((check_rate_limit s now).2.api_requests.length < s.rate_limit)
    ∧ ((check_rate_limit s now).1.1 = true → (check_rate_limit s now).1.2 = 0)
    ∧ (∀ t0 rest, (check_rate_limit s now).2.api_requests = t0 :: rest →
        (check_rate_limit s now).1.1 = false →
        (check_rate_limit s now).1.2 = max 0 (s.rate_limit_window - (now - t0)))
    ∧ (check_rate_limit { initState with rate_limit := 2 } 100).1 = (true, 0)
    ∧ (check_rate_limit (record_api_request (record_api_request
        (check_rate_limit { initState with rate_limit := 2 } 100).2 100) 100) 100).1
        = (false, 60)
    ∧ (check_rate_limit (record_api_request (record_api_request
        (check_rate_limit { initState with rate_limit := 2 } 100).2 100) 100) 161).1
        = (true, 0) := by
  refine ⟨?_, ?_, ?_, ?_,
    by norm_num [check_rate_limit, record_api_request, initState],
    by norm_num [check_rate_limit, record_api_request, initState],
    by norm_num [check_rate_limit, record_api_request, initState]⟩
  · by_cases h : (s.api_requests.filter (fun t => now - t < s.rate_limit_window)).length
        < s.rate_limit <;>
      simp [check_rate_limit, h]
  · by_cases h : (s.api_requests.filter (fun t => now - t < s.rate_limit_window)).length
        < s.rate_limit <;>
      simp [check_rate_limit, h]
  · by_cases h : (s.api_requests.filter (fun t => now - t < s.rate_limit_window)).length
        < s.rate_limit <;>
      simp [check_rate_limit, h]
  · intro t0 rest hev hperm
    by_cases h : (s.api_requests.filter (fun t => now - t < s.rate_limit_window)).length
        < s.rate_limit
    · simp [check_rate_limit, h] at hperm
    · simp only [check_rate_limit, h, if_false] at hev ⊢
      simp only [hev]

/-- Witness for C1 at a concrete non-permitted state: one in-window
timestamp `40` at time `50` with `limit = 0` yields the floored wait. -/
theorem check_rate_limit_spec_witness :
    (check_rate_limit { initState with rate_limit := 0, api_requests := [40] } 50).1.2
      = max 0 (60 - (50 - 40)) := by
  have h := check_rate_limit_spec
    { initState with rate_limit := 0, api_requests := [40] } 50
  exact h.2.2.2.1 40 []
    (by norm_num [check_rate_limit, initState])
    (by norm_num [check_rate_limit, initState])

/-- Claim C6: with `N` calls all recorded within the last `windowSeconds`,
`remaining()` (the `api_remaining` field of `get_rate_limit_info`) equals
`limit - N` when `N <= limit`, and when `N > limit` the check returns
`permitted = false` with a strictly positive wait, since every surviving
timestamp is strictly younger than `windowSeconds`. -/
theorem rate_window_accounting (ts : List ℚ) (now : ℚ) (limit : ℕ) (window : ℚ)
    (hin : ∀ t ∈ ts, now - t < window) :
    (ts.length ≤ limit →
      (get_rate_limit_info { initState with
          api_requests := ts, rate_limit := limit, rate_limit_window := window } now).1.api_remaining = (limit : ℤ) - ts.length)
    ∧ (limit < ts.length →
        (check_rate_limit { initState with
            api_requests := ts, rate_limit := limit, rate_limit_window := window } now).1.1 = false
        ∧ 0 < (check_rate_limit { initState with
            api_requests := ts, rate_limit := limit, rate_limit_window := window } now).1.2) := by
  have hfilter : ts.filter (fun t => decide (now - t < window)) = ts :=
    List.filter_eq_self.mpr (fun a ha => by simpa using hin a ha)
  constructor
  · intro _hN
    simp [get_rate_limit_info, hfilter]
  · intro hN
    cases ts with
    | nil => simp at hN
    | cons t0 rest =>
      have hnotlt : ¬ (rest.length + 1 < limit) := by
        simp only [List.length_cons] at hN
        omega
      have h0 : (0 : ℚ) < window - (now - t0) := by
        have := hin t0 (by simp)
        linarith
      constructor
      · simp [check_rate_limit, hfilter, hnotlt]
      · simp [check_rate_limit, hfilter, hnotlt, lt_max_iff]
        linarith

/-- Witness for C6: three in-window timestamps against `limit = 2` yield a
rejected check with a strictly positive wait. -/
theorem rate_window_accounting_witness :
    (check_rate_limit { initState with
        api_requests := [10, 20, 30], rate_limit := 2, rate_limit_window := 60 } 35).1.1 = false
    ∧ 0 < (check_rate_limit { initState with
        api_requests := [10, 20, 30], rate_limit := 2, rate_limit_window := 60 } 35).1.2 :=
  (rate_window_accounting [10, 20, 30] 35 2 60 (by norm_num)).2 (by norm_num)

/-- Claim C9: `get_queue_info` returns the queue size, the in-flight
operation and the processing flag while leaving the whole scheduler state
unchanged, and `get_rate_limit_info` changes nothing but the eviction of
expired timestamps: queue contents, current operation, group locks and the
processor task are identical, every surviving in-window timestamp is kept,
and it reports `used` as the post-eviction window length and `remaining` as
`limit - used`. -/
theorem introspection_frame (s : SchedState) (now : ℚ) :
    (get_queue_info s).2 = s
    ∧ (get_queue_info s).1.queue_size = s.operation_queue.length
    ∧ (get_queue_info s).1.current_operation = s.current_operation
    ∧ (get_queue_info s).1.is_processing = s.current_operation.isSome
    ∧ (get_rate_limit_info s now).2
        = { s with api_requests :=
              s.api_requests.filter (fun t => now - t < s.rate_limit_window) }
    ∧ (get_rate_limit_info s now).2.operation_queue = s.operation_queue
    ∧ (get_rate_limit_info s now).2.current_operation = s.current_operation
    ∧ (get_rate_limit_info s now).2.alliance_locks = s.alliance_locks
    ∧ (get_rate_limit_info s now).2.queue_processor_task = s.queue_processor_task
    ∧ (∀ t ∈ s.api_requests, now - t < s.rate_limit_window →
        t ∈ (get_rate_limit_info s now).2.api_requests)
    ∧ (get_rate_limit_info s now).1.api_used
        = (get_rate_limit_info s now).2.api_requests.length
    ∧ (get_rate_limit_info s now).1.api_remaining
        = (s.rate_limit : ℤ) - (get_rate_limit_info s now).1.api_used := by
  refine ⟨rfl, rfl, rfl, rfl, rfl, rfl, rfl, rfl, rfl, ?_, rfl, rfl⟩
  intro t ht hw
  simp [get_rate_limit_info, List.mem_filter, ht, hw]

/-- Witness for C9: a surviving timestamp is still present after the call. -/
theorem introspection_frame_witness :
    (5 : ℚ) ∈ (get_rate_limit_info { initState with api_requests := [5] } 10).2.api_requests :=
  (introspection_frame { initState with api_requests := [5] } 10).2.2.2.2.2.2.2.2.2.1
    5 (by simp) (by norm_num [initState])

/-- Claim C2: whenever the rate-limit check rejects, `fetch_player_data`
returns a `rate_limited` result carrying the computed wait time and appends
no timestamp to the window; a timestamp is appended exactly once per request
for which a response was actually obtained from the remote service, and the
window never gains more than one entry in a single call. -/
theorem fetch_player_data_rate_gate (s : SchedState) (now : ℚ) (net : NetOutcome) :
    ((check_rate_limit s now).1.1 = false →
      (fetch_player_data s now net).1.status = Status.rateLimited
      ∧ (fetch_player_data s now net).1.wait_time = some (check_rate_limit s now).1.2
      ∧ (fetch_player_data s now net).2.api_requests
          = s.api_requests.filter (fun t => now - t < s.rate_limit_window))
    ∧ (∀ st d ec m, (check_rate_limit s now).1.1 = true → s.api_available = true →
        net = NetOutcome.resp st d ec m →
        (fetch_player_data s now net).2.api_requests
          = s.api_requests.filter (fun t => now - t < s.rate_limit_window) ++ [now])
    ∧ ((fetch_player_data s now net).2.api_requests
          = s.api_requests.filter (fun t => now - t < s.rate_limit_window)
      ∨ (fetch_player_data s now net).2.api_requests
          = s.api_requests.filter (fun t => now - t < s.rate_limit_window) ++ [now]) := by
  have hst := check_rate_limit_state_eq s now
  have hreq : (check_rate_limit s now).2.api_requests
      = s.api_requests.filter (fun t => now - t < s.rate_limit_window) := by
    rw [hst]
  have hav : (check_rate_limit s now).2.api_available = s.api_available := by
    rw [hst]
  refine ⟨?_, ?_, ?_⟩
  · intro h
    simp [fetch_player_data, h, hreq]
  · intro st d ec m h ha hnet
    subst hnet
    simp only [fetch_player_data, h, ha, hav, record_api_request]
    simp only [Bool.true_eq_false, if_false]
    split <;> (try split) <;> (try split) <;> simp [record_api_request, hreq]
  · by_cases h : (check_rate_limit s now).1.1 = false
    · left
      simp [fetch_player_data, h, hreq]
    · have h' : (check_rate_limit s now).1.1 = true := by
        simpa using h
      by_cases ha : s.api_available = true
      · cases net with
        | exn m =>
            left
            simp [fetch_player_data, h', ha, hav, hreq]
        | resp st d ec m =>
            right
            simp only [fetch_player_data, h', ha, hav, record_api_request]
            simp only [Bool.true_eq_false, if_false]
            split <;> (try split) <;> (try split) <;>
              simp [record_api_request, hreq]
      · left
        have ha' : s.api_available = false := by
          simpa using ha
        simp [fetch_player_data, h', ha', hav, hreq]

/-- Witness for C2: a state with `limit = 0` rejects the request and leaves
the (empty after eviction) window without any appended timestamp. -/
theorem fetch_player_data_rate_gate_witness :
    (fetch_player_data { initState with rate_limit := 0 } 100
        (NetOutcome.resp 200 (some "payload") none "ok")).1.status = Status.rateLimited
    ∧ (fetch_player_data { initState with rate_limit := 0 } 100
        (NetOutcome.resp 200 (some "payload") none "ok")).2.api_requests = [] := by
  have h := fetch_player_data_rate_gate { initState with rate_limit := 0 } 100
    (NetOutcome.resp 200 (some "payload") none "ok")
  have hrej : (check_rate_limit { initState with rate_limit := 0 } 100).1.1 = false := by
    norm_num [check_rate_limit, initState]
  exact ⟨(h.1 hrej).1, (h.1 hrej).2.2⟩

/-- Claim C5: `queue_operation` sets `was_queued = (size before enqueue > 0)`
on the operation, appends it to the FIFO, returns the queue size immediately
after appending, and ensures the consumer task is running, idempotently:
right after the call a running task exists and calling the starter again
changes nothing.  Submitting three operations in sequence from the initial
state with no consumer progress returns positions 1, 2 and 3. -/
theorem queue_operation_spec (s : SchedState) (op : OperationInfo) :
    (queue_operation s op).2.operation_queue
        = s.operation_queue ++ [{ op with was_queued := decide (0 < s.operation_queue.length) }]
    ∧ (queue_operation s op).1 = s.operation_queue.length + 1
    ∧ (queue_operation s op).2.queue_processor_task = some false
    ∧ start_queue_processor (queue_operation s op).2 = (queue_operation s op).2
    ∧ (queue_operation initState ⟨"op1", none, none, false, false, false⟩).1 = 1
    ∧ (queue_operation (queue_operation initState
          ⟨"op1", none, none, false, false, false⟩).2
          ⟨"op2", none, none, false, false, false⟩).1 = 2
    ∧ (queue_operation (queue_operation (queue_operation initState
          ⟨"op1", none, none, false, false, false⟩).2
          ⟨"op2", none, none, false, false, false⟩).2
          ⟨"op3", none, none, false, false, false⟩).1 = 3 := by
  refine ⟨?_, ?_, ?_, ?_, rfl, rfl, rfl⟩
  · cases h : s.queue_processor_task with
    | none => simp [queue_operation, start_queue_processor, h]
    | some d => cases d <;> simp [queue_operation, start_queue_processor, h]
  · cases h : s.queue_processor_task with
    | none => simp [queue_operation, start_queue_processor, h]
    | some d => cases d <;> simp [queue_operation, start_queue_processor, h]
  · cases h : s.queue_processor_task with
    | none => simp [queue_operation, start_queue_processor, h]
    | some d => cases d <;> simp [queue_operation, start_queue_processor, h]
  · cases h : s.queue_processor_task with
    | none => simp [queue_operation, start_queue_processor, h]
    | some d => cases d <;> simp [queue_operation, start_queue_processor, h]

/-- Claim C10: constructing `LoginHandler` is idempotent process-wide: at
any class state whose stored singleton instance is initialized — whatever
accumulated instance state `st` it carries (rate window, lock registry,
operation queue, consumer task handle) — a construction returns that very
instance and changes nothing at all, i.e. it performs no initialization and
preserves the accumulated state; the very first construction allocates the
singleton and runs the initializer once. -/
theorem singleton_construction (cs : PyClassState) (i : ℕ) (st : SchedState)
    (hattr : cs.instanceAttr = some i)
    (hheap : cs.heap[i]? = some ⟨true, st⟩) :
    login_handler_construct cs = (i, cs)
    ∧ (login_handler_construct ⟨[], none⟩).2 = ⟨[⟨true, initState⟩], some 0⟩ := by
  refine ⟨?_, rfl⟩
  simp [login_handler_construct, login_handler_new, hattr, login_handler_init, hheap]

/-- Witness for C10: a class state holding a singleton with accumulated
state (a non-empty rate window, a created lock, a running consumer task);
constructing again returns the same instance and preserves everything. -/
theorem singleton_construction_witness :
    login_handler_construct
        ⟨[⟨true, { initState with
            api_requests := [1], alliance_locks := ["A1"],
            queue_processor_task := some false }⟩], some 0⟩
      = (0, ⟨[⟨true, { initState with
            api_requests := [1], alliance_locks := ["A1"],
            queue_processor_task := some false }⟩], some 0⟩) :=
  (singleton_construction
    ⟨[⟨true, { initState with
        api_requests := [1], alliance_locks := ["A1"],
        queue_processor_task := some false }⟩], some 0⟩
    0
    { initState with
        api_requests := [1], alliance_locks := ["A1"],
        queue_processor_task := some false }
    rfl rfl).1

/-- Claim C3: when the callback of operation A raises, the consumer catches
the exception — the processing of the queue is the processing of A followed,
unconditionally, by the processing of the remaining operations — logs the
failure, forwards it to the interaction sink when one is present (and its
send does not itself raise), and still processes operation B submitted after
A: B's processing event appears in the output. -/
theorem failure_isolation (a b : OperationInfo) (rest : List OperationInfo)
    (s : SchedState) (m : String) (hfail : a.callbackRaises = some m) :
    (process_operation_queue (a :: b :: rest) s).1
        = (process_one_operation a s).1
          ++ (process_operation_queue (b :: rest) (process_one_operation a s).2).1
    ∧ ConsumerEvent.log ("Operation failed: " ++ a.description ++ " - Error: " ++ m)
        ∈ (process_one_operation a s).1
    ∧ (a.hasInteraction = true → a.interactionSendFails = false →
        ConsumerEvent.followupSend ("Operation failed: " ++ m)
          ∈ (process_one_operation a s).1)
    ∧ ConsumerEvent.log ("Processing operation: " ++ b.description)
        ∈ (process_operation_queue (a :: b :: rest) s).1 := by
  refine ⟨?_, ?_, ?_, ?_⟩
  · simp [process_operation_queue]
  · simp [process_one_operation, hfail]
  · intro hint hsend
    simp [process_one_operation, hfail, hint, hsend]
  · simp [process_operation_queue, process_one_operation]

/-- Witness for C3: an operation whose callback raises `boom`, followed by a
healthy operation; the failure is logged and forwarded, and the second
operation is still processed. -/
theorem failure_isolation_witness :
    ConsumerEvent.log ("Operation failed: " ++ "opA" ++ " - Error: " ++ "boom")
        ∈ (process_one_operation ⟨"opA", none, some "boom", true, false, false⟩ initState).1
    ∧ ConsumerEvent.followupSend ("Operation failed: " ++ "boom")
        ∈ (process_one_operation ⟨"opA", none, some "boom", true, false, false⟩ initState).1
    ∧ ConsumerEvent.log ("Processing operation: " ++ "opB")
        ∈ (process_operation_queue [⟨"opA", none, some "boom", true, false, false⟩,
            ⟨"opB", none, none, false, false, false⟩] initState).1 := by
  have h := failure_isolation ⟨"opA", none, some "boom", true, false, false⟩
    ⟨"opB", none, none, false, false, false⟩ [] initState "boom" rfl
  exact ⟨h.2.1, h.2.2.1 rfl rfl, h.2.2.2⟩

/-- Claim C7: the consumer loop stops exactly on deliberate cancellation —
a fault escaping the per-operation boundary is logged, followed by a one
second pause, and the loop resumes — and once cancelled the loop emits its
cancellation log and processes no further items. -/
theorem consumer_loop_liveness (o : IterOutcome) (s : SchedState) :
    ((∃ evs, (loop_iteration o s).1 = LoopStep.stop evs) ↔ o = IterOutcome.cancelled)
    ∧ (∀ m, (loop_iteration (IterOutcome.fault m) s).1
        = LoopStep.resume [ConsumerEvent.log ("Queue processor error: " ++ m),
            ConsumerEvent.sleep 1])
    ∧ (∀ rest, run_consumer (IterOutcome.cancelled :: rest) s
        = ([ConsumerEvent.log "Queue processor cancelled"], s)) := by
  refine ⟨?_, fun m => rfl, fun rest => rfl⟩
  cases o with
  | item op => simp [loop_iteration]
  | cancelled => simp [loop_iteration]
  | fault m => simp [loop_iteration]

/-- Helper: `fetch_player_data` never touches the operation queue. -/
theorem fetch_player_data_queue_frame (s : SchedState) (now : ℚ) (net : NetOutcome) :
    (fetch_player_data s now net).2.operation_queue = s.operation_queue := by
  have hq : (check_rate_limit s now).2.operation_queue = s.operation_queue := by
    rw [check_rate_limit_state_eq]
  cases net with
  | exn m =>
      simp only [fetch_player_data]
      split <;> try split
      all_goals simp [record_api_request, hq]
  | resp st d ec m =>
      simp only [fetch_player_data]
      split <;> (try split) <;> (try split) <;> (try split) <;> (try split)
      all_goals simp [record_api_request, hq]

/-- Helper: the final state of a batch run keeps the operation queue of the
starting state. -/
theorem fetch_batch_go_queue_frame (oracle : ℕ → ℚ × NetOutcome) (hasCb : Bool) :
    ∀ (fids : List String) (i total k : ℕ) (s : SchedState),
      (fetch_batch_go oracle hasCb fids i total k s).2.2.1.operation_queue
        = s.operation_queue := by
  intro fids
  induction fids with
  | nil => intro i total k s; rfl
  | cons fid rest ih =>
      intro i total k s
      simp only [fetch_batch_go]
      split
      · rw [ih]
        rw [fetch_player_data_queue_frame, fetch_player_data_queue_frame]
      · rw [ih]
        rw [fetch_player_data_queue_frame]

/-- Helper: the batch produces one result per fid. -/
theorem fetch_batch_go_length (oracle : ℕ → ℚ × NetOutcome) (hasCb : Bool) :
    ∀ (fids : List String) (i total k : ℕ) (s : SchedState),
      (fetch_batch_go oracle hasCb fids i total k s).1.length = fids.length := by
  intro fids
  induction fids with
  | nil => intro i total k s; rfl
  | cons fid rest ih =>
      intro i total k s
      simp only [fetch_batch_go]
      split <;> simp [ih]

/-- Claim C8: the batch fetch returns one result per fid in order, never
re-enters anything into the operation queue, and handles a `rate_limited`
fetch by sleeping the advisory wait time (60 when the result carries none)
and retrying exactly once in place, the retry result unconditionally
replacing the original in the returned list; a non-rate-limited result is
kept as is. -/
theorem batch_fetch_spec (oracle : ℕ → ℚ × NetOutcome) (hasCb : Bool)
    (fids : List String) (i total k : ℕ) (s : SchedState)
    (fid : String) (rest : List String) :
    (fetch_batch_go oracle hasCb fids i total k s).1.length = fids.length
    ∧ (fetch_batch_go oracle hasCb fids i total k s).2.2.1.operation_queue
        = s.operation_queue
    ∧ ((fetch_player_data s (oracle k).1 (oracle k).2).1.status = Status.rateLimited →
        (fetch_batch_go oracle hasCb (fid :: rest) i total k s).1
          = (fetch_player_data (fetch_player_data s (oracle k).1 (oracle k).2).2
                (oracle (k + 1)).1 (oracle (k + 1)).2).1
            :: (fetch_batch_go oracle hasCb rest (i + 1) total (k + 2)
                (fetch_player_data (fetch_player_data s (oracle k).1 (oracle k).2).2
                  (oracle (k + 1)).1 (oracle (k + 1)).2).2).1
        ∧ BatchEvent.sleep
            ((fetch_player_data s (oracle k).1 (oracle k).2).1.wait_time.getD 60)
          ∈ (fetch_batch_go oracle hasCb (fid :: rest) i total k s).2.1)
    ∧ ((fetch_player_data s (oracle k).1 (oracle k).2).1.status ≠ Status.rateLimited →
        (fetch_batch_go oracle hasCb (fid :: rest) i total k s).1
          = (fetch_player_data s (oracle k).1 (oracle k).2).1
            :: (fetch_batch_go oracle hasCb rest (i + 1) total (k + 1)
                (fetch_player_data s (oracle k).1 (oracle k).2).2).1) := by
  refine ⟨fetch_batch_go_length oracle hasCb fids i total k s,
    fetch_batch_go_queue_frame oracle hasCb fids i total k s, ?_, ?_⟩
  · intro hrl
    constructor
    · simp [fetch_batch_go, hrl]
    · simp [fetch_batch_go, hrl]
  · intro hrl
    simp [fetch_batch_go, hrl]

/-- Witness for C8: a single fid against a zero-limit state: the first fetch
is locally rate limited with advisory wait `0`, so the batch sleeps `0` and
retries once in place. -/
theorem batch_fetch_spec_witness :
    BatchEvent.sleep 0 ∈ (fetch_batch_go (fun _ => (100, NetOutcome.exn "x")) false
      ["f1"] 0 1 0 { initState with rate_limit := 0 }).2.1 := by
  have h := batch_fetch_spec (fun _ => (100, NetOutcome.exn "x")) false ["f1"] 0 1 0
    { initState with rate_limit := 0 } "f1" []
  have hrl : (fetch_player_data { initState with rate_limit := 0 } 100
      (NetOutcome.exn "x")).1.status = Status.rateLimited := by
    norm_num [fetch_player_data, check_rate_limit, initState]
  have hw : (fetch_player_data { initState with rate_limit := 0 } 100
      (NetOutcome.exn "x")).1.wait_time = some (0 : ℚ) := by
    norm_num [fetch_player_data, check_rate_limit, initState]
  have hm := (h.2.2.1 hrl).2
  rw [hw] at hm
  simpa using hm

/-- Helper: every `LockStep` preserves the mutual-exclusion invariant. -/
theorem lockStep_preserves_mutexInv {cfg cfg' : List GTask}
    (hstep : LockStep cfg cfg') (hinv : MutexInv cfg) : MutexInv cfg' := by
  cases hstep with
  | start i t hget hp =>
      intro k a b ta tb hga hgb hka hkb hpa hpb
      have hlen : i < cfg.length := by
        by_contra hnot
        rw [List.getElem?_eq_none (by omega)] at hget
        exact Option.noConfusion hget
      by_cases hai : a = i
      · subst hai
        rw [List.getElem?_set_eq_of_lt _ hlen] at hga
        cases hga
        simp at hpa
      · by_cases hbi : b = i
        · subst hbi
          rw [List.getElem?_set_eq_of_lt _ hlen] at hgb
          cases hgb
          simp at hpb
        · rw [List.getElem?_set_ne (fun h => hai h.symm)] at hga
          rw [List.getElem?_set_ne (fun h => hbi h.symm)] at hgb
          exact hinv k a b ta tb hga hgb hka hkb hpa hpb
  | acquire i t hget hp hfree =>
      intro k a b ta tb hga hgb hka hkb hpa hpb
      have hlen : i < cfg.length := by
        by_contra hnot
        rw [List.getElem?_eq_none (by omega)] at hget
        exact Option.noConfusion hget
      by_cases hai : a = i
      · by_cases hbi : b = i
        · rw [hai, hbi]
        · exfalso
          subst hai
          rw [List.getElem?_set_eq_of_lt _ hlen] at hga
          cases hga
          rw [List.getElem?_set_ne (fun h => hbi h.symm)] at hgb
          exact hfree k hka b tb hgb hbi hkb hpb
      · by_cases hbi : b = i
        · exfalso
          subst hbi
          rw [List.getElem?_set_eq_of_lt _ hlen] at hgb
          cases hgb
          rw [List.getElem?_set_ne (fun h => hai h.symm)] at hga
          exact hfree k hkb a ta hga hai hka hpa
        · rw [List.getElem?_set_ne (fun h => hai h.symm)] at hga
          rw [List.getElem?_set_ne (fun h => hbi h.symm)] at hgb
          exact hinv k a b ta tb hga hgb hka hkb hpa hpb
  | release i t hget hp =>
      intro k a b ta tb hga hgb hka hkb hpa hpb
      have hlen : i < cfg.length := by
        by_contra hnot
        rw [List.getElem?_eq_none (by omega)] at hget
        exact Option.noConfusion hget
      by_cases hai : a = i
      · subst hai
        rw [List.getElem?_set_eq_of_lt _ hlen] at hga
        cases hga
        simp at hpa
      · by_cases hbi : b = i
        · subst hbi
          rw [List.getElem?_set_eq_of_lt _ hlen] at hgb
          cases hgb
          simp at hpb
        · rw [List.getElem?_set_ne (fun h => hai h.symm)] at hga
          rw [List.getElem?_set_ne (fun h => hbi h.symm)] at hgb
          exact hinv k a b ta tb hga hgb hka hkb hpa hpb

/-- Claim C4: in every configuration reachable from an all-idle start, at
most one task holds any given group key's lock, i.e. two tasks carrying the
same `alliance_id` are never simultaneously inside their callback's critical
section — their callback executions never overlap, however their submissions
interleave with ungrouped operations; a holder leaves the critical section
(releasing the lock) before any other same-key task can enter it. -/
theorem group_lock_exclusion (c0 cfg : List GTask)
    (hinit : ∀ t ∈ c0, t.phase = Phase.idle)
    (hreach : Relation.ReflTransGen LockStep c0 cfg) :
    MutexInv cfg := by
  induction hreach with
  | refl =>
      intro k a b ta tb hga hgb hka hkb hpa hpb
      obtain ⟨hlt, rfl⟩ := List.getElem?_eq_some.mp hga
      have := hinit _ (List.getElem_mem hlt)
      rw [this] at hpa
      exact Phase.noConfusion hpa
  | tail hsteps hstep ih => exact lockStep_preserves_mutexInv hstep ih

/-- Witness for C4: two tasks of group `A`; the first is started and then
acquires the lock, and the reached configuration satisfies the invariant. -/
theorem group_lock_exclusion_witness :
    MutexInv [⟨some "A", Phase.critical⟩, ⟨some "A", Phase.idle⟩] := by
  have hfree : ∀ k, (GTask.mk (some "A") Phase.waiting).key = some k →
      ∀ j u, ([⟨some "A", Phase.waiting⟩, ⟨some "A", Phase.idle⟩] : List GTask)[j]? = some u →
      j ≠ 0 → u.key = some k → u.phase ≠ Phase.critical := by
    intro k hk j u hu hj hku
    cases j with
    | zero => exact absurd rfl hj
    | succ j' =>
        cases j' with
        | zero =>
            simp only [List.getElem?_cons_succ, List.getElem?_cons_zero] at hu
            cases hu
            simp
        | succ j'' =>
            simp at hu
  have step1 : LockStep [⟨some "A", Phase.idle⟩, ⟨some "A", Phase.idle⟩]
      [⟨some "A", Phase.waiting⟩, ⟨some "A", Phase.idle⟩] :=
    LockStep.start _ 0 ⟨some "A", Phase.idle⟩ rfl rfl
  have step2 : LockStep [⟨some "A", Phase.waiting⟩, ⟨some "A", Phase.idle⟩]
      [⟨some "A", Phase.critical⟩, ⟨some "A", Phase.idle⟩] :=
    LockStep.acquire _ 0 ⟨some "A", Phase.waiting⟩ rfl rfl hfree
  exact group_lock_exclusion _ _
    (by intro t ht; fin_cases ht <;> rfl)
    (Relation.ReflTransGen.tail (Relation.ReflTransGen.tail Relation.ReflTransGen.refl
      step1) step2)

end LoginHandler
